import Mathlib

/-!
Verification of the in-memory user store in `src/test-sample.rs`.

The Rust module defines a `User` record, a `UserRepository` backed by a
`HashMap<u64, User>`, and a `UserService` holding exclusive mutable access
to one repository.  We give a shallow embedding: `u64` values are `Nat`
(with an explicit `% 2 ^ 64` where the source performs the `as u64` cast),
the hash map is an association list whose insert operation replaces any
existing entry with the same key, `&mut self` methods become explicit
state-passing functions, and the async lookup's timer is recorded as a
`delayMillis` field carried alongside the result.
-/

/-- Embedding of `struct User { id: u64, name: String, email: String }`. -/
structure User where
  id : Nat
  name : String
  email : String
deriving DecidableEq, Repr

/-- Embedding of the derived `Clone` for `User`: every field is cloned, and
cloning a `u64` or a `String` preserves its value. -/
def User.clone (u : User) : User :=
  ⟨u.id, u.name, u.email⟩

/-- Embedding of `struct UserRepository { users: HashMap<u64, User> }`.
The map is represented by its list of key-value entries; every observation
the source performs on it (`get`, `insert`, `len`) is defined below with
`HashMap` semantics. -/
structure UserRepository where
  users : List (Nat × User)
deriving DecidableEq, Repr

/-- Embedding of `UserRepository::new`: `HashMap::new()` is the empty map. -/
def UserRepository.new : UserRepository :=
  ⟨[]⟩

/-- Embedding of `HashMap::insert(k, v)`: the entry for `k`, if any, is
replaced by `(k, v)`; all other entries are kept. -/
def hashMapInsert (m : List (Nat × User)) (k : Nat) (v : User) : List (Nat × User) :=
  (k, v) :: m.filter (fun p => p.1 != k)

/-- Embedding of `fn get_by_id(&self, id: u64) -> Option<&User>`
(`self.users.get(&id)`); the returned reference is modelled by the value
it points to. -/
def UserRepository.get_by_id (self : UserRepository) (id : Nat) : Option User :=
  self.users.lookup id

/-- Embedding of `fn add(&mut self, entity: User)`
(`self.users.insert(entity.id, entity)`); the mutated receiver is returned. -/
def UserRepository.add (self : UserRepository) (entity : User) : UserRepository :=
  ⟨hashMapInsert self.users entity.id entity⟩

/-- Result of a suspending computation: the artificial delay, in
milliseconds, awaited before the result is produced. -/
structure Delayed (α : Type) where
  delayMillis : Nat
  result : α
deriving DecidableEq, Repr

/-- Embedding of `async fn get_by_id_async(&self, id: u64) -> Option<User>`:
`tokio::time::sleep(100ms).await; self.users.get(&id).cloned()`.  The sleep
is recorded as the `delayMillis` field; `.cloned()` maps `User.clone` over
the looked-up reference. -/
def UserRepository.get_by_id_async (self : UserRepository) (id : Nat) : Delayed (Option User) :=
  ⟨100, (self.users.lookup id).map User.clone⟩

/-- State-transformer view of `get_by_id`: the method takes `&self` (a
shared reference) and its body contains no mutation, so the repository
threads through unchanged next to the returned value. -/
def UserRepository.get_by_id_run (self : UserRepository) (id : Nat) :
    Option User × UserRepository :=
  (self.users.lookup id, self)

/-- State-transformer view of `get_by_id_async`: again a `&self` method
whose body only reads, so the repository threads through unchanged. -/
def UserRepository.get_by_id_async_run (self : UserRepository) (id : Nat) :
    Delayed (Option User) × UserRepository :=
  (self.get_by_id_async id, self)

/-- Embedding of `struct UserService<'a> { repository: &'a mut UserRepository }`:
the exclusive mutable borrow is modelled by the service owning the
repository state, which updated methods return. -/
structure UserService where
  repository : UserRepository
deriving DecidableEq, Repr

/-- Embedding of `UserService::new(repository)`. -/
def UserService.new (repository : UserRepository) : UserService :=
  ⟨repository⟩

/-- Embedding of `fn generate_id(&self) -> u64`:
`(self.repository.users.len() + 1) as u64`.  The cast to `u64` is the
explicit reduction modulo `2 ^ 64`. -/
def UserService.generate_id (self : UserService) : Nat :=
  (self.repository.users.length + 1) % 2 ^ 64

/-- Embedding of `fn create_user(&mut self, name, email) -> User`: build a
`User` from `generate_id` and the arguments, `add` a clone of it to the
repository, return the user by value (paired with the updated service). -/
def UserService.create_user (self : UserService) (name email : String) : User × UserService :=
  let user : User := ⟨self.generate_id, name, email⟩
  (user, ⟨self.repository.add user.clone⟩)

/-- One call against the repository surface, for reasoning about all states
reachable from `UserRepository.new`: either a direct `add`, or a
`create_user` through a service bound to the current repository. -/
inductive Op where
  | addUser (u : User)
  | createUser (name email : String)
deriving DecidableEq, Repr

/-- Apply one operation to a repository state. -/
def applyOp (r : UserRepository) : Op → UserRepository
  | .addUser u => r.add u
  | .createUser n e => ((UserService.new r).create_user n e).2.repository

/-- Run a sequence of operations from a freshly constructed repository. -/
def runOps (ops : List Op) : UserRepository :=
  ops.foldl applyOp UserRepository.new

/-- The identifiers under which the operations of a trace insert entries,
starting from repository state `r`: an `add` inserts at the entity's own
identifier, a `create_user` at the identifier generated from the state it
runs in. -/
def insertedIds (r : UserRepository) : List Op → List Nat
  | [] => []
  | op :: rest =>
      (match op with
       | .addUser u => u.id
       | .createUser _ _ => (UserService.new r).generate_id) :: insertedIds (applyOp r op) rest

/-- Keys of the underlying entry list. -/
def mapKeys (m : List (Nat × User)) : List Nat :=
  m.map Prod.fst

theorem lookup_cons_self (l : List (Nat × User)) (k : Nat) (v : User) :
    List.lookup k ((k, v) :: l) = some v := by
  simp [List.lookup_cons]

theorem lookup_cons_ne (l : List (Nat × User)) (k a : Nat) (v : User) (h : k ≠ a) :
    List.lookup k ((a, v) :: l) = List.lookup k l := by
  simp [List.lookup_cons, beq_false_of_ne h]

theorem lookup_filter_ne (m : List (Nat × User)) (k j : Nat) (h : k ≠ j) :
    List.lookup k (m.filter (fun p => p.1 != j)) = List.lookup k m := by
  induction m with
  | nil => rfl
  | cons p rest ih =>
    obtain ⟨a, v⟩ := p
    by_cases ha : a = j
    · subst ha
      rw [List.filter_cons_of_neg (by simp), ih, lookup_cons_ne rest k a v h]
    · rw [List.filter_cons_of_pos (by simpa using ha)]
      by_cases hk : k = a
      · subst hk; rw [lookup_cons_self, lookup_cons_self]
      · rw [lookup_cons_ne _ _ _ _ hk, lookup_cons_ne _ _ _ _ hk, ih]

theorem mapKeys_filter_sublist (m : List (Nat × User)) (j : Nat) :
    List.Sublist (mapKeys (m.filter (fun p => p.1 != j))) (mapKeys m) :=
  (List.filter_sublist m).map Prod.fst

theorem not_mem_mapKeys_filter (m : List (Nat × User)) (j : Nat) :
    j ∉ mapKeys (m.filter (fun p => p.1 != j)) := by
  simp [mapKeys, List.mem_filter]

theorem mem_of_lookup_eq_some (m : List (Nat × User)) (k : Nat) (u : User)
    (h : List.lookup k m = some u) : (k, u) ∈ m := by
  induction m with
  | nil => simp [List.lookup] at h
  | cons p rest ih =>
    obtain ⟨a, v⟩ := p
    by_cases hk : k = a
    · subst hk
      rw [lookup_cons_self] at h
      simp_all
    · rw [lookup_cons_ne _ _ _ _ hk] at h
      exact List.mem_cons_of_mem _ (ih h)

theorem get_by_id_add_self (r : UserRepository) (u : User) :
    (r.add u).get_by_id u.id = some u :=
  lookup_cons_self _ _ _

theorem get_by_id_add_ne (r : UserRepository) (u : User) (k : Nat) (h : k ≠ u.id) :
    (r.add u).get_by_id k = r.get_by_id k := by
  unfold UserRepository.add UserRepository.get_by_id hashMapInsert
  rw [lookup_cons_ne _ _ _ _ h, lookup_filter_ne _ _ _ h]

theorem mapKeys_cons (p : Nat × User) (m : List (Nat × User)) :
    mapKeys (p :: m) = p.1 :: mapKeys m :=
  rfl

theorem mapKeys_add_nodup (r : UserRepository) (u : User)
    (h : (mapKeys r.users).Nodup) : (mapKeys (r.add u).users).Nodup := by
  show (mapKeys ((u.id, u) :: r.users.filter (fun p => p.1 != u.id))).Nodup
  rw [mapKeys_cons]
  exact List.nodup_cons.mpr
    ⟨not_mem_mapKeys_filter _ _, (mapKeys_filter_sublist r.users u.id).nodup h⟩

/-- Entry coherence: every stored entry's key equals the identifier field of
the entity stored under it. -/
def coherentEntries (m : List (Nat × User)) : Prop :=
  ∀ p ∈ m, p.1 = p.2.id

theorem coherent_add (r : UserRepository) (u : User)
    (h : coherentEntries r.users) : coherentEntries (r.add u).users := by
  intro p hp
  rcases List.mem_cons.mp hp with hp | hp
  · subst hp; rfl
  · exact h p (List.mem_of_mem_filter hp)

theorem coherent_applyOp (r : UserRepository) (op : Op)
    (h : coherentEntries r.users) : coherentEntries (applyOp r op).users := by
  cases op with
  | addUser u => exact coherent_add r u h
  | createUser n e => exact coherent_add r _ h

theorem coherent_foldl (ops : List Op) :
    ∀ r : UserRepository, coherentEntries r.users →
      coherentEntries (ops.foldl applyOp r).users := by
  induction ops with
  | nil => intro r h; exact h
  | cons op rest ih => intro r h; exact ih _ (coherent_applyOp r op h)

theorem get_by_id_none_foldl (ops : List Op) :
    ∀ (r : UserRepository) (k : Nat), k ∉ insertedIds r ops →
      r.get_by_id k = none → (ops.foldl applyOp r).get_by_id k = none := by
  induction ops with
  | nil => intro r k _ h; exact h
  | cons op rest ih =>
    intro r k hk h
    rw [show insertedIds r (op :: rest) = _ :: insertedIds (applyOp r op) rest from rfl,
      List.mem_cons] at hk
    push_neg at hk
    refine ih (applyOp r op) k hk.2 ?_
    cases op with
    | addUser u => exact (get_by_id_add_ne r u k hk.1).trans h
    | createUser n e => exact (get_by_id_add_ne r _ k hk.1).trans h

/-- Claim C1: `create_user` generates the new identifier as (number of
entries in the repository) + 1, independently of which identifiers are
occupied: on any state whose size fits `u64` the identifier is size + 1;
on an empty repository it is 1; after one `create_user` it is 2; and on a
repository holding exactly one entity stored at identifier 5 it is 2,
not 6. -/
theorem generate_id_counts_entries :
    (∀ s : UserService, s.repository.users.length + 1 < 2 ^ 64 →
      s.generate_id = s.repository.users.length + 1) ∧
    (UserService.new UserRepository.new).generate_id = 1 ∧
    (∀ n e : String,
      ((UserService.new UserRepository.new).create_user n e).2.generate_id = 2) ∧
    (∀ u : User, u.id = 5 →
      (UserService.new (UserRepository.new.add u)).generate_id = 2) := by
  refine ⟨fun s h => Nat.mod_eq_of_lt h, by decide, fun n e => ?_, fun u hu => ?_⟩
  · show ((1 : Nat) + 1) % 2 ^ 64 = 2
    decide
  · show ((1 : Nat) + 1) % 2 ^ 64 = 2
    decide

/-- Witness for C1 at concrete inputs: the size bound holds on the empty
repository, and a repository holding one entity at identifier 5 yields 2. -/
theorem generate_id_counts_entries_witness :
    (UserService.new UserRepository.new).generate_id =
      (UserService.new UserRepository.new).repository.users.length + 1 ∧
    (UserService.new (UserRepository.new.add (User.mk 5 "Eve" "eve@x.com"))).generate_id = 2 :=
  ⟨generate_id_counts_entries.1 (UserService.new UserRepository.new) (by decide),
   generate_id_counts_entries.2.2.2 (User.mk 5 "Eve" "eve@x.com") rfl⟩

/-- Claim C2: after `add u`, `get_by_id u.id` returns a present result
whose value equals `u`, for every repository state and entity. -/
theorem add_then_get_by_id (r : UserRepository) (u : User) :
    (r.add u).get_by_id u.id = some u :=
  get_by_id_add_self r u

/-- Claim C3: inserting two entities with the same identifier leaves the
second retrievable at that identifier (silent overwrite, no error), and the
at-most-one-entity-per-identifier invariant (no duplicate keys) is
preserved. -/
theorem add_overwrites_same_id (r : UserRepository) (u1 u2 : User)
    (h : u1.id = u2.id) :
    ((r.add u1).add u2).get_by_id u1.id = some u2 ∧
    ((mapKeys r.users).Nodup → (mapKeys ((r.add u1).add u2).users).Nodup) := by
  constructor
  · rw [h]; exact get_by_id_add_self _ _
  · intro hn
    exact mapKeys_add_nodup _ u2 (mapKeys_add_nodup _ u1 hn)

/-- Witness for C3: two concrete entities with identifier 1. -/
theorem add_overwrites_same_id_witness :
    ((UserRepository.new.add (User.mk 1 "a" "x")).add (User.mk 1 "b" "y")).get_by_id 1 =
      some (User.mk 1 "b" "y") ∧
    (mapKeys ((UserRepository.new.add (User.mk 1 "a" "x")).add (User.mk 1 "b" "y")).users).Nodup :=
  ⟨(add_overwrites_same_id UserRepository.new (User.mk 1 "a" "x") (User.mk 1 "b" "y") rfl).1,
   (add_overwrites_same_id UserRepository.new (User.mk 1 "a" "x") (User.mk 1 "b" "y") rfl).2
     (by decide)⟩

/-- Claim C4: starting from a newly constructed repository, an identifier
never inserted by any operation of the trace looks up to `none`; moreover
the absent result is the only failure-like outcome of a lookup. -/
theorem get_by_id_never_inserted_none (ops : List Op) (k : Nat)
    (h : k ∉ insertedIds UserRepository.new ops) :
    (runOps ops).get_by_id k = none ∧
    ∀ (r : UserRepository) (j : Nat), r.get_by_id j = none ∨ ∃ u, r.get_by_id j = some u := by
  constructor
  · exact get_by_id_none_foldl ops UserRepository.new k h rfl
  · intro r j
    cases hj : r.get_by_id j with
    | none => exact Or.inl rfl
    | some u => exact Or.inr ⟨u, rfl⟩

/-- Witness for C4: a one-operation trace inserting identifier 1; looking
up identifier 2 yields `none`. -/
theorem get_by_id_never_inserted_none_witness :
    (runOps [Op.addUser (User.mk 1 "a" "a@x.com")]).get_by_id 2 = none :=
  (get_by_id_never_inserted_none [Op.addUser (User.mk 1 "a" "a@x.com")] 2 (by decide)).1

/-- Claim C5: `create_user name email` returns by value an entity whose
identifier is the generated identifier, whose name and email are the given
arguments, and inserts a copy so that `get_by_id` on that identifier
returns an entity equal to the returned one; concretely,
`create_user "Ann" "ann@x.com"` on a fresh repository returns
`⟨1, "Ann", "ann@x.com"⟩` and `get_by_id 1` returns the same data. -/
theorem create_user_returns_inserted_entity :
    (∀ (r : UserRepository) (n e : String),
      ((UserService.new r).create_user n e).1.id = (UserService.new r).generate_id ∧
      ((UserService.new r).create_user n e).1.name = n ∧
      ((UserService.new r).create_user n e).1.email = e ∧
      ((UserService.new r).create_user n e).2.repository.get_by_id
          (((UserService.new r).create_user n e).1.id) =
        some (((UserService.new r).create_user n e).1)) ∧
    ((UserService.new UserRepository.new).create_user "Ann" "ann@x.com").1 =
      User.mk 1 "Ann" "ann@x.com" ∧
    ((UserService.new UserRepository.new).create_user "Ann" "ann@x.com").2.repository.get_by_id 1 =
      some (User.mk 1 "Ann" "ann@x.com") := by
  refine ⟨fun r n e => ⟨rfl, rfl, rfl, ?_⟩, rfl, ?_⟩
  · exact get_by_id_add_self r (User.clone (User.mk (UserService.new r).generate_id n e))
  · show List.lookup 1 (hashMapInsert [] 1 (User.mk 1 "Ann" "ann@x.com")) =
      some (User.mk 1 "Ann" "ann@x.com")
    exact lookup_cons_self _ _ _

/-- Claim C6: the asynchronous lookup returns, after its fixed 100 ms
delay, exactly the cloned synchronous lookup result: a clone of the entity
when `get_by_id` is present, the absent result when it is absent, and the
delay has no effect on the result. -/
theorem get_by_id_async_agrees_with_sync (r : UserRepository) (k : Nat) :
    (r.get_by_id_async k).result = Option.map User.clone (r.get_by_id k) ∧
    (r.get_by_id_async k).result = r.get_by_id k ∧
    (r.get_by_id_async k).delayMillis = 100 := by
  refine ⟨rfl, ?_, rfl⟩
  show (r.users.lookup k).map User.clone = r.users.lookup k
  cases r.users.lookup k <;> rfl

/-- Claim C7: `get_by_id` and `get_by_id_async` are read-only: the
repository state after the call is the state before it, and the returned
value is the plain lookup result. -/
theorem get_by_id_read_only (r : UserRepository) (k : Nat) :
    (r.get_by_id_run k).2 = r ∧
    (r.get_by_id_run k).1 = r.get_by_id k ∧
    (r.get_by_id_async_run k).2 = r ∧
    (r.get_by_id_async_run k).1 = r.get_by_id_async k :=
  ⟨rfl, rfl, rfl, rfl⟩

/-- Claim C8: every operation of the external surface is total: repository
construction, `add`, `get_by_id`, service construction, and `create_user`
all produce a result on every input, with the lookup's absent case the
only non-`some` outcome and no error signalled anywhere. -/
theorem operations_total (r : UserRepository) (u : User) (n e : String) (k : Nat) :
    (∃ r2 : UserRepository, r.add u = r2) ∧
    ((∃ v, r.get_by_id k = some v) ∨ r.get_by_id k = none) ∧
    (∃ (usr : User) (s2 : UserService), (UserService.new r).create_user n e = (usr, s2)) ∧
    (∃ s : UserService, UserService.new r = s) ∧
    (∃ r0 : UserRepository, UserRepository.new = r0) := by
  refine ⟨⟨r.add u, rfl⟩, ?_,
    ⟨((UserService.new r).create_user n e).1, ((UserService.new r).create_user n e).2, rfl⟩,
    ⟨UserService.new r, rfl⟩, ⟨UserRepository.new, rfl⟩⟩
  cases hj : r.get_by_id k with
  | none => exact Or.inr rfl
  | some v => exact Or.inl ⟨v, rfl⟩

/-- Claim C9: key-field coherence on every reachable state: whenever a
lookup on a state reached from a fresh repository by `add` and
`create_user` operations returns an entity, that entity's identifier field
equals the looked-up key. -/
theorem key_field_coherence (ops : List Op) (k : Nat) (u : User)
    (h : (runOps ops).get_by_id k = some u) : u.id = k := by
  have hc : coherentEntries (runOps ops).users :=
    coherent_foldl ops UserRepository.new (by intro p hp; cases hp)
  exact (hc (k, u) (mem_of_lookup_eq_some _ _ _ h)).symm

/-- Witness for C9: a trace inserting the entity with identifier 3; the
lookup at key 3 returns it and its identifier field is 3. -/
theorem key_field_coherence_witness : (User.mk 3 "a" "b").id = 3 :=
  key_field_coherence [Op.addUser (User.mk 3 "a" "b")] 3 (User.mk 3 "a" "b") (by decide)

/-- Claim C10: frame property of insertion: `add u` leaves the lookup at
every key other than `u.id` unchanged, and `create_user` leaves the lookup
at every key other than the generated identifier unchanged. -/
theorem add_frame_other_keys (r : UserRepository) (u : User) (k : Nat) (n e : String) :
    (k ≠ u.id → (r.add u).get_by_id k = r.get_by_id k) ∧
    (k ≠ (UserService.new r).generate_id →
      ((UserService.new r).create_user n e).2.repository.get_by_id k = r.get_by_id k) :=
  ⟨fun h => get_by_id_add_ne r u k h,
   fun h => get_by_id_add_ne r (User.clone (User.mk (UserService.new r).generate_id n e)) k h⟩

/-- Witness for C10: adding identifier 3 and creating a user (generated
identifier 1) both leave the lookup at key 7 unchanged. -/
theorem add_frame_other_keys_witness :
    (UserRepository.new.add (User.mk 3 "a" "b")).get_by_id 7 =
      UserRepository.new.get_by_id 7 ∧
    ((UserService.new UserRepository.new).create_user "n" "e").2.repository.get_by_id 7 =
      UserRepository.new.get_by_id 7 :=
  ⟨(add_frame_other_keys UserRepository.new (User.mk 3 "a" "b") 7 "n" "e").1 (by decide),
   (add_frame_other_keys UserRepository.new (User.mk 3 "a" "b") 7 "n" "e").2 (by decide)⟩
